import Mathlib

set_option maxRecDepth 16384

/-!
Verification development for a single-file page-oriented key-value store
(`src/src/kvstore.c`, `src/include/kvstore.h`).

The shallow embedding below models:
  * machine integers as `Nat` with explicit `% 2^32` / `% 2^64` where the
    C code computes in `uint32_t` / `uint64_t`;
  * the file as a list of pages (page = list of bytes); every page writer
    in the C code first zero-fills its 4096-byte buffer, so a page is
    represented by its written byte prefix and every byte read beyond the
    stored list yields 0 (`byteAt`); a page exists in the file (a `pread`
    of it is not short) exactly when its index is below the list length;
  * the in-memory hash index as a list of `HASH_TABLE_SIZE` buckets, each
    a list of entries, newest first, exactly as `hash_table_insert` /
    `hash_table_lookup` / `hash_table_remove` manipulate it;
  * fallible operations return a `Res` status paired with the updated
    in-memory state.  `pwrite` of a full page at a page-aligned offset is
    modelled as always succeeding (files extend on write); `db_put_io`
    additionally takes a flag injecting a failure of the final record
    write, to reason about the I/O-failure path of `db_put`.
  * NULL-pointer argument checks and `malloc` failure (OOM) paths are not
    modelled: keys, values and the handle always exist in the embedding.
-/

/-- Errno-style failure codes surfaced by the store (`IOErr` stands for
the errno value EIO). -/
inductive Err where
  | EINVAL
  | EFBIG
  | IOErr
  | ENOENT
deriving DecidableEq, Repr

/-- Result of a fallible operation: success with a payload, or an errno. -/
inductive Res (α : Type) where
  | ok (a : α)
  | err (e : Err)
deriving DecidableEq, Repr

def PAGE_SIZE : Nat := 4096

def MAGIC : Nat := 0xDB01

def VERSION : Nat := 1

def PAGE_TYPE_DATA : Nat := 1

def PAGE_TYPE_DELETED : Nat := 2

def HASH_TABLE_SIZE : Nat := 1024

/-- Size of `struct page_header` (packed: u32 page_type, u32 checksum, u64 reserved). -/
def pageHeaderSize : Nat := 16

/-- Little-endian 4-byte encoding of a `uint32_t` value (truncates mod 2^32). -/
def le4 (n : Nat) : List Nat :=
  [n % 256, n / 256 % 256, n / 65536 % 256, n / 16777216 % 256]

/-- Little-endian 8-byte encoding of a `uint64_t` value (truncates mod 2^64). -/
def le8 (n : Nat) : List Nat :=
  [n % 256, n / 256 % 256, n / 65536 % 256, n / 16777216 % 256,
   n / 4294967296 % 256, n / 1099511627776 % 256,
   n / 281474976710656 % 256, n / 72057594037927936 % 256]

/-- A page: its written byte prefix.  All writers zero-fill the 4096-byte
buffer first, so bytes beyond the stored list read as 0. -/
abbrev Page := List Nat

/-- Byte `i` of a page buffer (0 beyond the written prefix, matching the
zero-filled remainder of the 4096-byte buffer). -/
def byteAt (p : Page) (i : Nat) : Nat := p.getD i 0

/-- Read a `uint32_t` stored little-endian at byte offset `off`. -/
def readU32 (p : Page) (off : Nat) : Nat :=
  byteAt p off + 256 * byteAt p (off + 1) + 65536 * byteAt p (off + 2) +
    16777216 * byteAt p (off + 3)

/-- Read a `uint64_t` stored little-endian at byte offset `off`. -/
def readU64 (p : Page) (off : Nat) : Nat :=
  byteAt p off + 256 * byteAt p (off + 1) + 65536 * byteAt p (off + 2) +
    16777216 * byteAt p (off + 3) + 4294967296 * byteAt p (off + 4) +
    1099511627776 * byteAt p (off + 5) + 281474976710656 * byteAt p (off + 6) +
    72057594037927936 * byteAt p (off + 7)

/-- `memcpy` of `len` bytes starting at offset `off` out of a page buffer. -/
def readBytes (p : Page) (off len : Nat) : List Nat :=
  (List.range len).map (fun i => byteAt p (off + i))

/-- A hole page (never written): reads as all zeros. -/
def zeroPage : Page := []

/-- The file, as the list of its pages; page number = index.  A `pread` of
page `n` is short (fails) exactly when `n` is past the end of the list. -/
abbrev DbFile := List Page

/-- A full-page `pwrite` at offset `n * PAGE_SIZE`: overwrites page `n`,
extending the file (with zero holes) if `n` is at or past the end. -/
def writePage (f : DbFile) (n : Nat) (pg : Page) : DbFile :=
  if n < f.length then f.set n pg
  else f ++ List.replicate (n - f.length) zeroPage ++ [pg]

/-- A full-page `pread` of page `n`: `none` models a short read (past EOF). -/
def readPage (f : DbFile) (n : Nat) : Option Page := f.get? n

/-- In-memory copy of `struct db_header` (reserved padding omitted;
it is zero and never read). -/
structure DbHeader where
  magic : Nat
  version : Nat
  page_size : Nat
  num_pages : Nat
  next_free_page : Nat
  free_list_head : Nat
deriving DecidableEq, Repr

/-- Byte encoding of the header as written to page 0 (trailing 4064
reserved bytes are zero and omitted; they read back as 0). -/
def encodeHeader (h : DbHeader) : Page :=
  le4 h.magic ++ le4 h.version ++ le4 h.page_size ++ le4 h.num_pages ++
    le8 h.next_free_page ++ le8 h.free_list_head

/-- Decoding of the header bytes read from page 0. -/
def decodeHeader (p : Page) : DbHeader :=
  { magic := readU32 p 0
    version := readU32 p 4
    page_size := readU32 p 8
    num_pages := readU32 p 12
    next_free_page := readU64 p 16
    free_list_head := readU64 p 24 }

/-- Header written by `init_new_db` for a fresh file. -/
def init_header : DbHeader :=
  { magic := MAGIC, version := VERSION, page_size := PAGE_SIZE
    num_pages := 1, next_free_page := 1, free_list_head := 0 }

/-- `read_header`: pread page 0 (short read → IOErr), then validate magic,
version and page_size (mismatch → EINVAL). -/
def read_header (f : DbFile) : Res DbHeader :=
  match readPage f 0 with
  | none => .err .IOErr
  | some p =>
    let h := decodeHeader p
    if h.magic ≠ MAGIC then .err .EINVAL
    else if h.version ≠ VERSION then .err .EINVAL
    else if h.page_size ≠ PAGE_SIZE then .err .EINVAL
    else .ok h

/-- An entry of the in-memory index: owned key copy and the page number of
the key's current record (`struct hash_entry` without the list pointer;
chaining is the bucket list itself). -/
structure HashEntry where
  key : List Nat
  page_num : Nat
deriving DecidableEq, Repr

/-- The index: `HASH_TABLE_SIZE` buckets of entries, newest first. -/
abbrev HashTable := List (List HashEntry)

/-- djb2 hash over the key bytes in `uint32_t` arithmetic, reduced mod
`HASH_TABLE_SIZE` (the C `hash_key`). -/
def hash_key (key : List Nat) : Nat :=
  (key.foldl (fun h b => (h * 33 + b) % 4294967296) 5381) % HASH_TABLE_SIZE

/-- `hash_table_create`: all buckets empty. -/
def hash_table_create : HashTable := List.replicate HASH_TABLE_SIZE []

/-- `hash_table_insert`: prepend a fresh entry to the key's bucket. -/
def hash_table_insert (ht : HashTable) (key : List Nat) (page_num : Nat) : HashTable :=
  let b := hash_key key
  ht.set b ({ key := key, page_num := page_num } :: ht.getD b [])

/-- Scan of one bucket chain: page number of the first entry whose key
matches, 0 if none (the loop body of `hash_table_lookup`). -/
def bucket_lookup (key : List Nat) : List HashEntry → Nat
  | [] => 0
  | e :: rest => if e.key = key then e.page_num else bucket_lookup key rest

/-- `hash_table_lookup`: 0 means "no entry". -/
def hash_table_lookup (ht : HashTable) (key : List Nat) : Nat :=
  bucket_lookup key (ht.getD (hash_key key) [])

/-- Removal of the first matching entry from a bucket chain (the loop body
of `hash_table_remove`). -/
def bucket_remove (key : List Nat) : List HashEntry → List HashEntry
  | [] => []
  | e :: rest => if e.key = key then rest else e :: bucket_remove key rest

/-- `hash_table_remove`: drop the first matching entry of the key's bucket. -/
def hash_table_remove (ht : HashTable) (key : List Nat) : HashTable :=
  let b := hash_key key
  ht.set b (bucket_remove key (ht.getD b []))

/-- The runtime handle `struct db` (fd and filepath are OS resources with
no bearing on the store's state; omitted). -/
structure Db where
  header : DbHeader
  index : HashTable
  file : DbFile
deriving DecidableEq, Repr

/-- `alloc_page`: pop the free-list head if non-empty (its `reserved`
field, byte offset 8, is the next free page; a short read of the head page
returns 0 = failure with the header untouched); otherwise hand out
`next_free_page` and bump `next_free_page` (u64) and `num_pages` (u32). -/
def alloc_page (db : Db) : Nat × Db :=
  if db.header.free_list_head ≠ 0 then
    match readPage db.file db.header.free_list_head with
    | none => (0, db)
    | some page_buf =>
      (db.header.free_list_head,
        { db with header := { db.header with free_list_head := readU64 page_buf 8 } })
  else
    (db.header.next_free_page,
      { db with header :=
        { db.header with
          next_free_page := (db.header.next_free_page + 1) % 18446744073709551616
          num_pages := (db.header.num_pages + 1) % 4294967296 } })

/-- Bytes of the page written by `free_page`: zero-filled buffer with
page_type = DELETED, checksum = 0 and the old free-list head in the
`reserved` (next) field. -/
def deletedPage (next : Nat) : Page :=
  le4 PAGE_TYPE_DELETED ++ le4 0 ++ le8 next

/-- `free_page`: write the deleted page, then push it as the new free-list
head (the page write always succeeds in this model). -/
def free_page (db : Db) (page_num : Nat) : Db :=
  { db with
    file := writePage db.file page_num (deletedPage db.header.free_list_head)
    header := { db.header with free_list_head := page_num } }

/-- Bytes of a record page as built by `db_put`: zero-filled buffer,
page header (DATA, checksum 0, reserved 0), then key_len ‖ key ‖ val_len ‖
value.  The length fields are the `uint32_t` arguments of the call. -/
def dataPage (key val : List Nat) : Page :=
  le4 PAGE_TYPE_DATA ++ le4 0 ++ le8 0 ++
    le4 key.length ++ key ++ le4 val.length ++ val

/-- `db_put`, with a flag injecting failure of the final record-page
`pwrite` (the other writes are full-page writes that succeed in this
model).  The size check computes in `uint32_t`, hence the `% 2^32`. -/
def db_put_io (wfail : Bool) (db : Db) (key val : List Nat) : Res Unit × Db :=
  let required := (pageHeaderSize + 4 + key.length + 4 + val.length) % 4294967296
  if required > PAGE_SIZE then (.err .EFBIG, db)
  else
    let old_page_num := hash_table_lookup db.index key
    let ar := alloc_page db
    let new_page_num := ar.1
    let db1 := ar.2
    if new_page_num = 0 then (.err .IOErr, db1)
    else
      let db2 :=
        if old_page_num ≠ 0 then
          free_page { db1 with index := hash_table_remove db1.index key } old_page_num
        else db1
      if wfail then (.err .IOErr, db2)
      else
        let db3 := { db2 with file := writePage db2.file new_page_num (dataPage key val) }
        (.ok (), { db3 with index := hash_table_insert db3.index key new_page_num })

/-- `db_put` under normally succeeding I/O. -/
def db_put (db : Db) (key val : List Nat) : Res Unit × Db :=
  db_put_io false db key val

/-- `db_get`: index lookup (0 → ENOENT), pread the record page (short read
→ IOErr), then read val_len at offset 16 + 4 + key_len and copy the value
out.  The C function performs no writes, so the state comes back as is. -/
def db_get (db : Db) (key : List Nat) : Res (List Nat) × Db :=
  let page_num := hash_table_lookup db.index key
  if page_num = 0 then (.err .ENOENT, db)
  else
    match readPage db.file page_num with
    | none => (.err .IOErr, db)
    | some page_buf =>
      let off := pageHeaderSize + 4 + key.length
      let val_len := readU32 page_buf off
      (.ok (readBytes page_buf (off + 4) val_len), db)

/-- `db_delete`: index lookup (0 → ENOENT), free the record's page, then
drop the index entry. -/
def db_delete (db : Db) (key : List Nat) : Res Unit × Db :=
  let page_num := hash_table_lookup db.index key
  if page_num = 0 then (.err .ENOENT, db)
  else
    let db1 := free_page db page_num
    (.ok (), { db1 with index := hash_table_remove db1.index key })

/-- The index-rebuild step of `db_open` for one page: skip short reads and
non-DATA pages, else read key_len at offset 16, the key at offset 20, and
insert key → page_num. -/
def scanPage (f : DbFile) (ht : HashTable) (page_num : Nat) : HashTable :=
  match readPage f page_num with
  | none => ht
  | some pg =>
    if readU32 pg 0 ≠ PAGE_TYPE_DATA then ht
    else hash_table_insert ht (readBytes pg 20 (readU32 pg 16)) page_num

/-- The `db_open` rebuild scan over pages 1 .. next_free_page - 1. -/
def rebuildIndex (f : DbFile) (next_free_page : Nat) : HashTable :=
  (List.range' 1 (next_free_page - 1)).foldl (scanPage f) hash_table_create

/-- `db_open` on an existing file: read and validate the header, then
rebuild the index by scanning the allocated pages. -/
def db_open_existing (f : DbFile) : Res Db :=
  match read_header f with
  | .err e => .err e
  | .ok h => .ok { header := h, index := rebuildIndex f h.next_free_page, file := f }

/-- `db_open` on a nonexistent path: `init_new_db` writes the fresh header
to the empty file, then the common path (header read + scan) runs. -/
def db_open_fresh : Res Db :=
  db_open_existing (writePage [] 0 (encodeHeader init_header))

/-- The handle produced by opening a fresh file. -/
def freshDb : Db :=
  { header := init_header, index := hash_table_create
    file := [encodeHeader init_header] }

/-- `db_close`: flush the in-memory header to page 0 and return the final
file (fsync/close/frees release resources and do not change the bytes). -/
def db_close (db : Db) : DbFile :=
  writePage db.file 0 (encodeHeader db.header)

/-- One public mutating-or-reading operation, for quantifying over
operation sequences. -/
inductive Op where
  | put (key val : List Nat)
  | get (key : List Nat)
  | del (key : List Nat)

/-- State reached after one operation. -/
def applyOp (db : Db) : Op → Db
  | .put key val => (db_put db key val).2
  | .get key => (db_get db key).2
  | .del key => (db_delete db key).2

/-- State reached after a sequence of operations. -/
def run (ops : List Op) (db : Db) : Db := ops.foldl applyOp db

/-- Whether a page currently holds a live data record for `key`. -/
def isRecordFor (pg : Page) (key : List Nat) : Bool :=
  readU32 pg 0 == PAGE_TYPE_DATA && readBytes pg 20 (readU32 pg 16) == key

/-- Number of live data pages of the file holding a record for `key`
(page 0, the header, is never a data page). -/
def livePagesFor (db : Db) (key : List Nat) : Nat :=
  ((List.range db.file.length).filter
    (fun n => n != 0 && isRecordFor (db.file.getD n []) key)).length

/-- Header after `n` fresh-path allocations on a new store, for small `n`. -/
def hdrAfter (n : Nat) (flh : Nat) : DbHeader :=
  { magic := MAGIC, version := VERSION, page_size := PAGE_SIZE
    num_pages := 1 + n, next_free_page := 1 + n, free_list_head := flh }

/-- All entries of every bucket of the table satisfy `P` of their key. -/
def htAll (P : List Nat → Prop) (ht : HashTable) : Prop :=
  ∀ b ∈ ht, ∀ e ∈ b, P e.key

/-- The operation sequence of `n` puts of distinct 4-byte keys. -/
def putOps (n : Nat) : List Op := (List.range n).map (fun i => Op.put (le4 i) [])

/-! ### Generic byte-level and list lemmas -/

theorem byteAt_append_left {l r : List Nat} {i : Nat} (h : i < l.length) :
    byteAt (l ++ r) i = byteAt l i := by
  unfold byteAt
  rw [List.getD_append _ _ _ _ h]

theorem byteAt_append_right (l r : List Nat) (i : Nat) :
    byteAt (l ++ r) (l.length + i) = byteAt r i := by
  unfold byteAt
  rw [List.getD_append_right _ _ _ _ (Nat.le_add_right _ _), Nat.add_sub_cancel_left]

theorem byteAt_cons_zero (a : Nat) (l : List Nat) : byteAt (a :: l) 0 = a := rfl

theorem byteAt_cons_succ (a : Nat) (l : List Nat) (i : Nat) :
    byteAt (a :: l) (i + 1) = byteAt l i := rfl

theorem le4_length (n : Nat) : (le4 n).length = 4 := rfl

theorem le8_length (n : Nat) : (le8 n).length = 8 := rfl

theorem readU32_le4_append (x : Nat) (rest : List Nat) :
    readU32 (le4 x ++ rest) 0 = x % 4294967296 := by
  simp only [readU32, le4, List.cons_append, List.nil_append]
  simp only [byteAt_cons_zero, byteAt_cons_succ]
  show x % 256 + 256 * (x / 256 % 256) + 65536 * (x / 65536 % 256) +
      16777216 * (x / 16777216 % 256) = x % 4294967296
  omega

theorem readU64_le8_append (x : Nat) (rest : List Nat) :
    readU64 (le8 x ++ rest) 0 = x % 18446744073709551616 := by
  simp only [readU64, le8, List.cons_append, List.nil_append]
  simp only [byteAt_cons_zero, byteAt_cons_succ]
  show x % 256 + 256 * (x / 256 % 256) + 65536 * (x / 65536 % 256) +
      16777216 * (x / 16777216 % 256) + 4294967296 * (x / 4294967296 % 256) +
      1099511627776 * (x / 1099511627776 % 256) +
      281474976710656 * (x / 281474976710656 % 256) +
      72057594037927936 * (x / 72057594037927936 % 256) = x % 18446744073709551616
  omega

theorem readU32_shift (pre : List Nat) (rest : List Nat) (i : Nat) :
    readU32 (pre ++ rest) (pre.length + i) = readU32 rest i := by
  simp only [readU32]
  rw [show pre.length + i + 1 = pre.length + (i + 1) by omega,
      show pre.length + i + 2 = pre.length + (i + 2) by omega,
      show pre.length + i + 3 = pre.length + (i + 3) by omega,
      byteAt_append_right, byteAt_append_right, byteAt_append_right, byteAt_append_right]

theorem readU64_shift (pre : List Nat) (rest : List Nat) (i : Nat) :
    readU64 (pre ++ rest) (pre.length + i) = readU64 rest i := by
  simp only [readU64]
  rw [show pre.length + i + 1 = pre.length + (i + 1) by omega,
      show pre.length + i + 2 = pre.length + (i + 2) by omega,
      show pre.length + i + 3 = pre.length + (i + 3) by omega,
      show pre.length + i + 4 = pre.length + (i + 4) by omega,
      show pre.length + i + 5 = pre.length + (i + 5) by omega,
      show pre.length + i + 6 = pre.length + (i + 6) by omega,
      show pre.length + i + 7 = pre.length + (i + 7) by omega]
  rw [byteAt_append_right, byteAt_append_right, byteAt_append_right, byteAt_append_right,
      byteAt_append_right, byteAt_append_right, byteAt_append_right, byteAt_append_right]

theorem readBytes_append (pre mid rest : List Nat) :
    readBytes (pre ++ (mid ++ rest)) pre.length mid.length = mid := by
  apply List.ext_getElem
  · simp [readBytes]
  · intro n h1 h2
    simp only [readBytes, List.getElem_map, List.getElem_range]
    rw [byteAt_append_right, byteAt_append_left h2]
    exact List.getD_eq_getElem _ _ h2

theorem readPage_writePage (f : DbFile) (n : Nat) (pg : Page) :
    readPage (writePage f n pg) n = some pg := by
  by_cases h : n < f.length
  · simp only [readPage, writePage, if_pos h, List.get?_eq_getElem?]
    rw [List.getElem?_eq_getElem (by simpa using h)]
    simp [List.getElem_set_self]
  · have hle : (f ++ List.replicate (n - f.length) zeroPage).length ≤ n := by
      simp only [List.length_append, List.length_replicate]
      omega
    simp only [readPage, writePage, if_neg h, List.get?_eq_getElem?]
    rw [List.getElem?_append_right hle]
    have h0 : n - (f ++ List.replicate (n - f.length) zeroPage).length = 0 := by
      simp only [List.length_append, List.length_replicate]
      omega
    rw [h0]
    rfl

theorem writePage_length (f : DbFile) (n : Nat) (pg : Page) :
    (writePage f n pg).length = max f.length (n + 1) := by
  by_cases h : n < f.length
  · simp [writePage, h]; omega
  · simp [writePage, h]; omega

theorem getD_replicate_bucket (n i : Nat) :
    (List.replicate n ([] : List HashEntry)).getD i [] = [] := by
  induction n generalizing i with
  | zero => simp [List.getD]
  | succ m ih =>
    cases i with
    | zero => rfl
    | succ j => simp only [List.replicate_succ, List.getD_cons_succ]; exact ih j

theorem getD_set_self (l : HashTable) (i : Nat) (a : List HashEntry)
    (h : i < l.length) : (l.set i a).getD i [] = a := by
  rw [List.getD_eq_getElem _ _ (by simpa using h)]
  exact List.getElem_set_self _

theorem getD_set_ne (l : HashTable) (i j : Nat) (a : List HashEntry)
    (h : i ≠ j) : (l.set i a).getD j [] = l.getD j [] := by
  by_cases hj : j < l.length
  · rw [List.getD_eq_getElem _ _ (show j < (l.set i a).length by simpa using hj),
        List.getD_eq_getElem _ _ hj]
    exact List.getElem_set_ne h _
  · have h1 : (l.set i a).length ≤ j := by
      simp only [List.length_set]
      omega
    have h2 : l.length ≤ j := Nat.le_of_not_lt hj
    simp [List.getD, List.get?_eq_getElem?, List.getElem?_eq_none h1,
      List.getElem?_eq_none h2]

/-! ### Page-format decode lemmas -/

theorem dataPage_eq_append (k v : List Nat) :
    dataPage k v =
      (le4 PAGE_TYPE_DATA ++ le4 0 ++ le8 0 ++ le4 k.length) ++
        (k ++ (le4 v.length ++ v)) := by
  simp [dataPage, List.append_assoc]

theorem dataPage_type (k v : List Nat) : readU32 (dataPage k v) 0 = PAGE_TYPE_DATA := by
  simp [dataPage, readU32, le4, le8, byteAt, PAGE_TYPE_DATA]

theorem dataPage_reserved (k v : List Nat) : readU64 (dataPage k v) 8 = 0 := by
  simp [dataPage, readU64, le4, le8, byteAt, PAGE_TYPE_DATA]

theorem dataPage_klen (k v : List Nat) (hk : k.length < 4294967296) :
    readU32 (dataPage k v) 16 = k.length := by
  have h2 : dataPage k v =
      (le4 PAGE_TYPE_DATA ++ le4 0 ++ le8 0) ++ (le4 k.length ++ (k ++ (le4 v.length ++ v))) := by
    simp [dataPage, List.append_assoc]
  have hpre : (le4 PAGE_TYPE_DATA ++ le4 0 ++ le8 0).length = 16 := by simp [le4, le8]
  rw [h2, show (16 : Nat) = (le4 PAGE_TYPE_DATA ++ le4 0 ++ le8 0).length + 0 by rw [hpre],
      readU32_shift, readU32_le4_append]
  omega

theorem dataPage_key (k v : List Nat) : readBytes (dataPage k v) 20 k.length = k := by
  have h := readBytes_append (le4 PAGE_TYPE_DATA ++ le4 0 ++ le8 0 ++ le4 k.length) k
      (le4 v.length ++ v)
  have hpre : (le4 PAGE_TYPE_DATA ++ le4 0 ++ le8 0 ++ le4 k.length).length = 20 := by
    simp [le4, le8]
  rw [dataPage_eq_append, show (20 : Nat) = (le4 PAGE_TYPE_DATA ++ le4 0 ++ le8 0 ++
    le4 k.length).length by rw [hpre]]
  exact h

theorem dataPage_vlen (k v : List Nat) (hv : v.length < 4294967296) :
    readU32 (dataPage k v) (20 + k.length) = v.length := by
  have h2 : dataPage k v =
      (le4 PAGE_TYPE_DATA ++ le4 0 ++ le8 0 ++ le4 k.length ++ k) ++ (le4 v.length ++ v) := by
    simp [dataPage, List.append_assoc]
  have hpre : (le4 PAGE_TYPE_DATA ++ le4 0 ++ le8 0 ++ le4 k.length ++ k).length =
      20 + k.length := by
    simp [le4, le8]
    omega
  rw [h2, show 20 + k.length = (le4 PAGE_TYPE_DATA ++ le4 0 ++ le8 0 ++ le4 k.length ++
    k).length + 0 by rw [hpre]; omega, readU32_shift, readU32_le4_append]
  omega

theorem dataPage_val (k v : List Nat) :
    readBytes (dataPage k v) (24 + k.length) v.length = v := by
  have h := readBytes_append
      (le4 PAGE_TYPE_DATA ++ le4 0 ++ le8 0 ++ le4 k.length ++ k ++ le4 v.length) v []
  have hpre : (le4 PAGE_TYPE_DATA ++ le4 0 ++ le8 0 ++ le4 k.length ++ k ++
      le4 v.length).length = 24 + k.length := by
    simp [le4, le8]
    omega
  have h3 : dataPage k v =
      (le4 PAGE_TYPE_DATA ++ le4 0 ++ le8 0 ++ le4 k.length ++ k ++ le4 v.length) ++
        (v ++ []) := by
    simp [dataPage, List.append_assoc]
  rw [h3, show 24 + k.length = (le4 PAGE_TYPE_DATA ++ le4 0 ++ le8 0 ++ le4 k.length ++
    k ++ le4 v.length).length by rw [hpre]]
  exact h

theorem deletedPage_type (x : Nat) : readU32 (deletedPage x) 0 = PAGE_TYPE_DELETED := by
  simp [deletedPage, readU32, le4, le8, byteAt, PAGE_TYPE_DELETED]

theorem deletedPage_next (x : Nat) (hx : x < 18446744073709551616) :
    readU64 (deletedPage x) 8 = x := by
  have h2 : deletedPage x = (le4 PAGE_TYPE_DELETED ++ le4 0) ++ (le8 x ++ []) := by
    simp [deletedPage, List.append_assoc]
  have hpre : (le4 PAGE_TYPE_DELETED ++ le4 0).length = 8 := by simp [le4]
  rw [h2, show (8 : Nat) = (le4 PAGE_TYPE_DELETED ++ le4 0).length + 0 by rw [hpre],
      readU64_shift, readU64_le8_append]
  omega

/-! ### Hash-table lemmas -/

theorem hash_key_lt (k : List Nat) : hash_key k < HASH_TABLE_SIZE :=
  Nat.mod_lt _ (by decide)

theorem hash_table_create_length : hash_table_create.length = HASH_TABLE_SIZE := by
  simp [hash_table_create]

theorem hash_table_insert_length (ht : HashTable) (k : List Nat) (n : Nat) :
    (hash_table_insert ht k n).length = ht.length := by
  simp [hash_table_insert]

theorem hash_table_remove_length (ht : HashTable) (k : List Nat) :
    (hash_table_remove ht k).length = ht.length := by
  simp [hash_table_remove]

theorem lookup_insert_self (ht : HashTable) (k : List Nat) (n : Nat)
    (h : ht.length = HASH_TABLE_SIZE) :
    hash_table_lookup (hash_table_insert ht k n) k = n := by
  unfold hash_table_lookup hash_table_insert
  rw [getD_set_self _ _ _ (by rw [h]; exact hash_key_lt k)]
  simp [bucket_lookup]

theorem lookup_create (k : List Nat) : hash_table_lookup hash_table_create k = 0 := by
  unfold hash_table_lookup hash_table_create
  rw [getD_replicate_bucket]
  rfl

theorem getD_create (i : Nat) : hash_table_create.getD i [] = [] := by
  unfold hash_table_create
  exact getD_replicate_bucket _ _

theorem lookup_remove_insert_create (k k' : List Nat) (n : Nat) :
    hash_table_lookup (hash_table_remove (hash_table_insert hash_table_create k n) k) k' = 0 := by
  have hlt : hash_key k < hash_table_create.length := by
    rw [hash_table_create_length]; exact hash_key_lt k
  have hbucket : (hash_table_insert hash_table_create k n).getD (hash_key k) [] =
      [{ key := k, page_num := n }] := by
    simp only [hash_table_insert]
    rw [getD_set_self _ _ _ hlt, getD_create]
  simp only [hash_table_lookup, hash_table_remove]
  rw [hbucket]
  by_cases hb : hash_key k = hash_key k'
  · rw [← hb, getD_set_self _ _ _ (by rw [hash_table_insert_length]; exact hlt)]
    simp [bucket_remove, bucket_lookup]
  · rw [getD_set_ne _ _ _ _ hb]
    simp only [hash_table_insert]
    rw [getD_set_ne _ _ _ _ hb, getD_create]
    rfl

/-! ### Scenario step lemmas (operations on a freshly created store) -/

theorem db_put_freshDb_core (k v : List Nat)
    (hno : ¬ ((pageHeaderSize + 4 + k.length + 4 + v.length) % 4294967296 > PAGE_SIZE)) :
    db_put freshDb k v =
      (.ok (), { header := hdrAfter 1 0
                 index := hash_table_insert hash_table_create k 1
                 file := [encodeHeader init_header, dataPage k v] }) := by
  unfold db_put db_put_io
  rw [if_neg hno]
  simp only [freshDb, init_header, hdrAfter, lookup_create, alloc_page, writePage,
    MAGIC, VERSION, PAGE_SIZE, Prod.mk.injEq, Db.mk.injEq, DbHeader.mk.injEq]
  norm_num

theorem db_put_freshDb (k v : List Nat) (hfit : 24 + k.length + v.length ≤ PAGE_SIZE) :
    db_put freshDb k v =
      (.ok (), { header := hdrAfter 1 0
                 index := hash_table_insert hash_table_create k 1
                 file := [encodeHeader init_header, dataPage k v] }) := by
  apply db_put_freshDb_core
  simp only [pageHeaderSize, PAGE_SIZE] at hfit ⊢
  rw [Nat.mod_eq_of_lt (by omega)]
  omega

theorem db_get_record (db : Db) (k v : List Nat) (n : Nat)
    (hl : hash_table_lookup db.index k = n) (hn : n ≠ 0)
    (hp : readPage db.file n = some (dataPage k v)) (hv : v.length < 4294967296) :
    db_get db k = (.ok v, db) := by
  unfold db_get
  rw [hl, if_neg hn, hp]
  show (Res.ok (readBytes (dataPage k v) (pageHeaderSize + 4 + k.length + 4)
      (readU32 (dataPage k v) (pageHeaderSize + 4 + k.length))), db) = (Res.ok v, db)
  rw [show pageHeaderSize + 4 + k.length = 20 + k.length by simp [pageHeaderSize]]
  rw [dataPage_vlen k v hv]
  rw [show 20 + k.length + 4 = 24 + k.length by omega, dataPage_val]

theorem db_get_absent (db : Db) (k : List Nat)
    (hl : hash_table_lookup db.index k = 0) :
    db_get db k = (.err .ENOENT, db) := by
  unfold db_get
  rw [hl, if_pos rfl]

theorem db_put_overwrite_freshDb (k v1 v2 : List Nat)
    (h1 : 24 + k.length + v1.length ≤ PAGE_SIZE)
    (h2 : 24 + k.length + v2.length ≤ PAGE_SIZE) :
    db_put (db_put freshDb k v1).2 k v2 =
      (.ok (), { header := hdrAfter 2 1
                 index := hash_table_insert
                   (hash_table_remove (hash_table_insert hash_table_create k 1) k) k 2
                 file := [encodeHeader init_header, deletedPage 0, dataPage k v2] }) := by
  rw [db_put_freshDb k v1 h1]
  have hno : ¬ ((pageHeaderSize + 4 + k.length + 4 + v2.length) % 4294967296 > PAGE_SIZE) := by
    simp only [pageHeaderSize, PAGE_SIZE] at h2 ⊢
    rw [Nat.mod_eq_of_lt (by omega)]
    omega
  have hlook : hash_table_lookup (hash_table_insert hash_table_create k 1) k = 1 :=
    lookup_insert_self _ _ _ hash_table_create_length
  unfold db_put db_put_io
  rw [if_neg hno]
  simp only [hlook, hdrAfter, init_header, alloc_page, free_page, deletedPage, writePage,
    MAGIC, VERSION, PAGE_SIZE, Prod.mk.injEq, Db.mk.injEq, DbHeader.mk.injEq, List.set]
  norm_num

theorem db_delete_after_put (k v : List Nat) (h1 : 24 + k.length + v.length ≤ PAGE_SIZE) :
    db_delete (db_put freshDb k v).2 k =
      (.ok (), { header := hdrAfter 1 1
                 index := hash_table_remove (hash_table_insert hash_table_create k 1) k
                 file := [encodeHeader init_header, deletedPage 0] }) := by
  rw [db_put_freshDb k v h1]
  have hlook : hash_table_lookup (hash_table_insert hash_table_create k 1) k = 1 :=
    lookup_insert_self _ _ _ hash_table_create_length
  unfold db_delete
  rw [hlook]
  simp only [free_page, hdrAfter, init_header, writePage, MAGIC, VERSION,
    PAGE_SIZE, Prod.mk.injEq, Db.mk.injEq, DbHeader.mk.injEq, List.set]
  norm_num

theorem db_put_after_delete (a va b vb : List Nat)
    (h1 : 24 + a.length + va.length ≤ PAGE_SIZE)
    (h2 : 24 + b.length + vb.length ≤ PAGE_SIZE) :
    db_put (db_delete (db_put freshDb a va).2 a).2 b vb =
      (.ok (), { header := hdrAfter 1 0
                 index := hash_table_insert
                   (hash_table_remove (hash_table_insert hash_table_create a 1) a) b 1
                 file := [encodeHeader init_header, dataPage b vb] }) := by
  rw [db_delete_after_put a va h1]
  have hno : ¬ ((pageHeaderSize + 4 + b.length + 4 + vb.length) % 4294967296 > PAGE_SIZE) := by
    simp only [pageHeaderSize, PAGE_SIZE] at h2 ⊢
    rw [Nat.mod_eq_of_lt (by omega)]
    omega
  unfold db_put db_put_io
  rw [if_neg hno, lookup_remove_insert_create]
  simp only [alloc_page, hdrAfter, init_header, readPage, List.get?, writePage,
    deletedPage_next 0 (by norm_num), MAGIC, VERSION, PAGE_SIZE,
    Prod.mk.injEq, Db.mk.injEq, DbHeader.mk.injEq, List.set]
  norm_num

theorem db_delete_absent (db : Db) (k : List Nat)
    (hl : hash_table_lookup db.index k = 0) :
    db_delete db k = (.err .ENOENT, db) := by
  unfold db_delete
  rw [hl, if_pos rfl]

theorem alloc_page_index (db : Db) : (alloc_page db).2.index = db.index := by
  unfold alloc_page
  by_cases h : db.header.free_list_head ≠ 0
  · rw [if_pos h]
    cases hr : readPage db.file db.header.free_list_head <;> simp
  · rw [if_neg h]

/-- A successful `db_put` produced its state by writing the record page at
the allocated (nonzero) page number and prepending the index entry, on top
of some intermediate state whose index has the same bucket count. -/
theorem db_put_ok (db db' : Db) (k v : List Nat)
    (hput : db_put db k v = (Res.ok (), db')) :
    ∃ (n : Nat) (db2 : Db), n ≠ 0 ∧ db2.index.length = db.index.length ∧
      db' = { header := db2.header
              index := hash_table_insert db2.index k n
              file := writePage db2.file n (dataPage k v) } := by
  unfold db_put db_put_io at hput
  by_cases hreq : (pageHeaderSize + 4 + k.length + 4 + v.length) % 4294967296 > PAGE_SIZE
  · rw [if_pos hreq] at hput
    simp at hput
  · rw [if_neg hreq] at hput
    simp only [] at hput
    by_cases hz : (alloc_page db).1 = 0
    · rw [if_pos hz] at hput
      simp at hput
    · rw [if_neg hz] at hput
      have hff : ¬(false = true) := by decide
      by_cases ho : hash_table_lookup db.index k ≠ 0
      · rw [if_pos ho, if_neg hff] at hput
        refine ⟨(alloc_page db).1,
          free_page { header := (alloc_page db).2.header,
                      index := hash_table_remove (alloc_page db).2.index k,
                      file := (alloc_page db).2.file } (hash_table_lookup db.index k),
          hz, ?_, ?_⟩
        · simp [free_page, hash_table_remove_length, alloc_page_index]
        · exact ((Prod.mk.injEq _ _ _ _).mp hput).2.symm
      · rw [if_neg ho, if_neg hff] at hput
        refine ⟨(alloc_page db).1, (alloc_page db).2, hz, ?_, ?_⟩
        · rw [alloc_page_index]
        · exact ((Prod.mk.injEq _ _ _ _).mp hput).2.symm

/-! ### Claim theorems -/

/-- C3: for every key and value whose encoded record fits in one page
(zero-length values included), a successful `put(k,v)` followed by `get(k)`
on the same handle returns exactly the bytes of `v` with exactly `v`'s
length; and `get` on an absent key (no index entry) reports ENOENT, never a
zero-length value, so absence and an empty stored value are
distinguishable. -/
theorem c3_put_get_roundtrip :
    (∀ (db db' : Db) (k v : List Nat),
        db.index.length = HASH_TABLE_SIZE →
        24 + k.length + v.length ≤ PAGE_SIZE →
        db_put db k v = (Res.ok (), db') →
        db_get db' k = (Res.ok v, db')) ∧
    (∀ (db : Db) (k : List Nat),
        hash_table_lookup db.index k = 0 →
        db_get db k = (Res.err Err.ENOENT, db)) := by
  constructor
  · intro db db' k v hlen hfit hput
    obtain ⟨n, db2, hn, hlen2, hdb'⟩ := db_put_ok db db' k v hput
    have hv32 : v.length < 4294967296 := by
      have hps : PAGE_SIZE = 4096 := rfl
      omega
    subst hdb'
    refine db_get_record _ k v n ?_ hn ?_ hv32
    · exact lookup_insert_self _ _ _ (by rw [hlen2, hlen])
    · exact readPage_writePage _ _ _
  · intro db k hl
    exact db_get_absent db k hl

theorem c3_witness :
    db_get (db_put freshDb [1] []).2 [1] = (Res.ok [], (db_put freshDb [1] []).2) ∧
    db_get freshDb [2] = (Res.err Err.ENOENT, freshDb) :=
  ⟨c3_put_get_roundtrip.1 freshDb (db_put freshDb [1] []).2 [1] [] (by decide) (by decide)
      (by decide),
   c3_put_get_roundtrip.2 freshDb [2] (by decide)⟩

/-- C5: starting from a fresh store, `put(k,v1); put(k,v2); get(k)` returns
exactly `v2`, and after the second put exactly one live data page of the
file holds a record for `k` (the first record's page was retired to the
free list as a deleted page). -/
theorem c5_overwrite (k v1 v2 : List Nat)
    (h1 : 24 + k.length + v1.length ≤ PAGE_SIZE)
    (h2 : 24 + k.length + v2.length ≤ PAGE_SIZE) :
    db_get (db_put (db_put freshDb k v1).2 k v2).2 k =
      (Res.ok v2, (db_put (db_put freshDb k v1).2 k v2).2) ∧
    livePagesFor (db_put (db_put freshDb k v1).2 k v2).2 k = 1 := by
  have hps : PAGE_SIZE = 4096 := rfl
  have hk32 : k.length < 4294967296 := by omega
  have hv32 : v2.length < 4294967296 := by omega
  rw [db_put_overwrite_freshDb k v1 v2 h1 h2]
  constructor
  · refine db_get_record _ k v2 2 ?_ (by norm_num) rfl hv32
    refine lookup_insert_self _ _ _ ?_
    rw [hash_table_remove_length, hash_table_insert_length, hash_table_create_length]
  · simp only [livePagesFor, List.length_cons, List.length_nil]
    norm_num [List.range_succ]
    simp [List.filter, isRecordFor, dataPage_type, dataPage_klen k v2 hk32, dataPage_key,
      deletedPage_type, List.getD, PAGE_TYPE_DATA, PAGE_TYPE_DELETED]

theorem c5_witness :
    db_get (db_put (db_put freshDb [1] [2]).2 [1] [3]).2 [1] =
      (Res.ok [3], (db_put (db_put freshDb [1] [2]).2 [1] [3]).2) ∧
    livePagesFor (db_put (db_put freshDb [1] [2]).2 [1] [3]).2 [1] = 1 :=
  c5_overwrite [1] [2] [3] (by decide) (by decide)

/-- C6: starting from a fresh store, after `put(k,v); delete(k)` a `get(k)`
reports ENOENT; a second `delete(k)` also reports ENOENT rather than
success; and `delete` on a key never stored likewise reports ENOENT. -/
theorem c6_delete_not_found (k v : List Nat)
    (hfit : 24 + k.length + v.length ≤ PAGE_SIZE) :
    db_get (db_delete (db_put freshDb k v).2 k).2 k =
      (Res.err Err.ENOENT, (db_delete (db_put freshDb k v).2 k).2) ∧
    db_delete (db_delete (db_put freshDb k v).2 k).2 k =
      (Res.err Err.ENOENT, (db_delete (db_put freshDb k v).2 k).2) ∧
    db_delete freshDb k = (Res.err Err.ENOENT, freshDb) := by
  rw [db_delete_after_put k v hfit]
  exact ⟨db_get_absent _ k (lookup_remove_insert_create k k 1),
    db_delete_absent _ k (lookup_remove_insert_create k k 1),
    db_delete_absent _ k (lookup_create k)⟩

theorem c6_witness :
    db_get (db_delete (db_put freshDb [1] [2]).2 [1]).2 [1] =
      (Res.err Err.ENOENT, (db_delete (db_put freshDb [1] [2]).2 [1]).2) ∧
    db_delete (db_delete (db_put freshDb [1] [2]).2 [1]).2 [1] =
      (Res.err Err.ENOENT, (db_delete (db_put freshDb [1] [2]).2 [1]).2) ∧
    db_delete freshDb [1] = (Res.err Err.ENOENT, freshDb) :=
  c6_delete_not_found [1] [2] (by decide)

/-- C7: freed pages are reused LIFO: starting from a fresh store, after
`put(a); delete(a); put(b)` the record for `b` occupies page 1, the very
page number `a`'s record occupied; the file has not grown by the second
put. -/
theorem c7_freelist_reuse (a va b vb : List Nat)
    (h1 : 24 + a.length + va.length ≤ PAGE_SIZE)
    (h2 : 24 + b.length + vb.length ≤ PAGE_SIZE) :
    hash_table_lookup (db_put freshDb a va).2.index a = 1 ∧
    hash_table_lookup (db_put (db_delete (db_put freshDb a va).2 a).2 b vb).2.index b = 1 ∧
    readPage (db_put (db_delete (db_put freshDb a va).2 a).2 b vb).2.file 1 =
      some (dataPage b vb) ∧
    (db_put (db_delete (db_put freshDb a va).2 a).2 b vb).2.file.length =
      (db_put freshDb a va).2.file.length := by
  rw [db_put_after_delete a va b vb h1 h2, db_put_freshDb a va h1]
  refine ⟨lookup_insert_self _ _ _ hash_table_create_length, ?_, rfl, rfl⟩
  refine lookup_insert_self _ _ _ ?_
  rw [hash_table_remove_length, hash_table_insert_length, hash_table_create_length]

theorem c7_witness :
    hash_table_lookup (db_put freshDb [1] [2]).2.index [1] = 1 ∧
    hash_table_lookup (db_put (db_delete (db_put freshDb [1] [2]).2 [1]).2 [4] [5]).2.index
      [4] = 1 ∧
    readPage (db_put (db_delete (db_put freshDb [1] [2]).2 [1]).2 [4] [5]).2.file 1 =
      some (dataPage [4] [5]) ∧
    (db_put (db_delete (db_put freshDb [1] [2]).2 [1]).2 [4] [5]).2.file.length =
      (db_put freshDb [1] [2]).2.file.length :=
  c7_freelist_reuse [1] [2] [4] [5] (by decide) (by decide)

/-- C10: `db_get` is read-only: whatever its outcome (value found, ENOENT,
or IOErr on a short page read), it returns the handle state — header, index
and file — unchanged. -/
theorem c10_get_readonly (db : Db) (k : List Nat) : (db_get db k).2 = db := by
  unfold db_get
  by_cases h : hash_table_lookup db.index k = 0
  · rw [if_pos h]
  · rw [if_neg h]
    cases hr : readPage db.file (hash_table_lookup db.index k) <;> simp [hr]

/-- C8: opening an existing file whose readable header page carries a
magic, version, or page_size differing from the engine's compile-time
constants fails with EINVAL and produces no handle. -/
theorem c8_open_reject (f : DbFile) (pg : Page)
    (hp : readPage f 0 = some pg)
    (hbad : (decodeHeader pg).magic ≠ MAGIC ∨ (decodeHeader pg).version ≠ VERSION ∨
      (decodeHeader pg).page_size ≠ PAGE_SIZE) :
    db_open_existing f = Res.err Err.EINVAL := by
  have hrh : read_header f = Res.err Err.EINVAL := by
    unfold read_header
    rw [hp]
    show (if (decodeHeader pg).magic ≠ MAGIC then Res.err Err.EINVAL
      else if (decodeHeader pg).version ≠ VERSION then Res.err Err.EINVAL
      else if (decodeHeader pg).page_size ≠ PAGE_SIZE then Res.err Err.EINVAL
      else Res.ok (decodeHeader pg)) = Res.err Err.EINVAL
    by_cases h1 : (decodeHeader pg).magic ≠ MAGIC
    · rw [if_pos h1]
    · rw [if_neg h1]
      by_cases h2 : (decodeHeader pg).version ≠ VERSION
      · rw [if_pos h2]
      · rw [if_neg h2]
        rcases hbad with h | h | h
        · exact absurd h h1
        · exact absurd h h2
        · rw [if_pos h]
  unfold db_open_existing
  rw [hrh]

theorem c8_witness :
    db_open_existing [le4 43981 ++ le4 1 ++ le4 4096 ++ le4 1 ++ le8 1 ++ le8 0] =
      Res.err Err.EINVAL :=
  c8_open_reject [le4 43981 ++ le4 1 ++ le4 4096 ++ le4 1 ++ le8 1 ++ le8 0]
    (le4 43981 ++ le4 1 ++ le4 4096 ++ le4 1 ++ le8 1 ++ le8 0) rfl (by decide)

/-- C1 (code bug): on an overwriting put whose record-page write fails, the
old page has already been freed and the key's index entry removed, so the
pre-existing value is no longer retrievable: a fresh store with key `[1]`
stored retrievably loses it after `db_put_io true` (write failure) — `get`
reports ENOENT instead of the old value `[2]`.  This contradicts the
claimed write-new-before-free-old ordering: `db_put` calls `free_page` on
the old page (and removes the index entry) before the new page's `pwrite`. -/
theorem c1_overwrite_write_failure :
    (db_get (db_put freshDb [1] [2]).2 [1]).1 = Res.ok [2] ∧
    (db_put_io true (db_put freshDb [1] [2]).2 [1] [3]).1 = Res.err Err.IOErr ∧
    (db_get (db_put_io true (db_put freshDb [1] [2]).2 [1] [3]).2 [1]).1 =
      Res.err Err.ENOENT := by
  decide

/-- C2 (code bug): the size check computes
`page_header_size + 4 + key_len + 4 + val_len` in `uint32_t`, which wraps:
for a key of length 2^32 - 24 and an empty value the true encoded size
exceeds the page size, yet `required` wraps to 0, the check passes, and the
put proceeds — a page is allocated (num_pages and next_free_page change)
instead of the record being rejected with EFBIG and zero side effects. -/
theorem c2_oversize_check_overflow :
    (db_put freshDb (List.replicate 4294967272 0) []).1 ≠ Res.err Err.EFBIG ∧
    (db_put freshDb (List.replicate 4294967272 0) []).2.header.num_pages = 2 ∧
    (db_put freshDb (List.replicate 4294967272 0) []).2.header.next_free_page = 2 := by
  have hno : ¬ ((pageHeaderSize + 4 + (List.replicate 4294967272 (0 : Nat)).length + 4 +
      ([] : List Nat).length) % 4294967296 > PAGE_SIZE) := by
    rw [List.length_replicate]
    decide
  rw [db_put_freshDb_core (List.replicate 4294967272 0) [] hno]
  refine ⟨by decide, rfl, rfl⟩

/-- C4: on a fresh store, `put(k,v); close; reopen; get(k)` returns `v`
unchanged with its exact length: the close-time header flush and the
open-time rebuild scan over pages 1 .. next_free_page - 1 preserve the
stored record. -/
theorem c4_persistence (k v : List Nat) (hfit : 24 + k.length + v.length ≤ PAGE_SIZE) :
    ∃ (d : Db), db_open_existing (db_close (db_put freshDb k v).2) = Res.ok d ∧
      db_get d k = (Res.ok v, d) := by
  have hps : PAGE_SIZE = 4096 := rfl
  have hk32 : k.length < 4294967296 := by omega
  have hv32 : v.length < 4294967296 := by omega
  rw [db_put_freshDb k v hfit]
  have hclose : db_close { header := hdrAfter 1 0,
                           index := hash_table_insert hash_table_create k 1,
                           file := [encodeHeader init_header, dataPage k v] } =
      [encodeHeader (hdrAfter 1 0), dataPage k v] := by
    simp [db_close, writePage, List.set]
  rw [hclose]
  have hdec : decodeHeader (encodeHeader (hdrAfter 1 0)) = hdrAfter 1 0 := by decide
  have hrh : read_header [encodeHeader (hdrAfter 1 0), dataPage k v] =
      Res.ok (hdrAfter 1 0) := by
    unfold read_header
    rw [show readPage [encodeHeader (hdrAfter 1 0), dataPage k v] 0 =
      some (encodeHeader (hdrAfter 1 0)) from rfl]
    show (if (decodeHeader (encodeHeader (hdrAfter 1 0))).magic ≠ MAGIC then
        Res.err Err.EINVAL
      else if (decodeHeader (encodeHeader (hdrAfter 1 0))).version ≠ VERSION then
        Res.err Err.EINVAL
      else if (decodeHeader (encodeHeader (hdrAfter 1 0))).page_size ≠ PAGE_SIZE then
        Res.err Err.EINVAL
      else Res.ok (decodeHeader (encodeHeader (hdrAfter 1 0)))) = Res.ok (hdrAfter 1 0)
    rw [hdec]
    norm_num [hdrAfter]
  have hscan : rebuildIndex [encodeHeader (hdrAfter 1 0), dataPage k v] 2 =
      hash_table_insert hash_table_create k 1 := by
    unfold rebuildIndex
    rw [show List.range' 1 (2 - 1) = [1] from rfl]
    rw [show (([1] : List Nat).foldl (scanPage [encodeHeader (hdrAfter 1 0), dataPage k v])
      hash_table_create) = scanPage [encodeHeader (hdrAfter 1 0), dataPage k v]
        hash_table_create 1 from rfl]
    unfold scanPage
    rw [show readPage [encodeHeader (hdrAfter 1 0), dataPage k v] 1 =
      some (dataPage k v) from rfl]
    show (if readU32 (dataPage k v) 0 ≠ PAGE_TYPE_DATA then hash_table_create
      else hash_table_insert hash_table_create
        (readBytes (dataPage k v) 20 (readU32 (dataPage k v) 16)) 1) =
      hash_table_insert hash_table_create k 1
    rw [dataPage_type, if_neg (by norm_num), dataPage_klen k v hk32, dataPage_key]
  refine ⟨{ header := hdrAfter 1 0, index := hash_table_insert hash_table_create k 1,
            file := [encodeHeader (hdrAfter 1 0), dataPage k v] }, ?_, ?_⟩
  · unfold db_open_existing
    rw [hrh]
    show Res.ok ({ header := hdrAfter 1 0,
                   index := rebuildIndex [encodeHeader (hdrAfter 1 0), dataPage k v]
                     (hdrAfter 1 0).next_free_page,
                   file := [encodeHeader (hdrAfter 1 0), dataPage k v] } : Db) = _
    rw [show (hdrAfter 1 0).next_free_page = 2 from rfl, hscan]
  · exact db_get_record _ k v 1 (lookup_insert_self _ _ _ hash_table_create_length)
      (by norm_num) rfl hv32

theorem c4_witness :
    ∃ (d : Db), db_open_existing (db_close (db_put freshDb [1] [2]).2) = Res.ok d ∧
      db_get d [1] = (Res.ok [2], d) :=
  c4_persistence [1] [2] (by decide)

/-! ### C9 helper layer -/

theorem le4_inj (i j : Nat) (hi : i < 4294967296) (hj : j < 4294967296)
    (h : le4 i = le4 j) : i = j := by
  simp only [le4, List.cons.injEq, and_true] at h
  omega

theorem htAll_create (P : List Nat → Prop) : htAll P hash_table_create := by
  intro b hb e he
  rw [List.eq_of_mem_replicate hb] at he
  cases he

theorem getD_mem_or_nil (ht : HashTable) (i : Nat) :
    ht.getD i [] ∈ ht ∨ ht.getD i [] = [] := by
  by_cases h : i < ht.length
  · left
    rw [List.getD_eq_getElem _ _ h]
    exact List.getElem_mem h
  · right
    simp [List.getD, List.get?_eq_getElem?, List.getElem?_eq_none (Nat.le_of_not_lt h)]

theorem htAll_insert (P : List Nat → Prop) (ht : HashTable) (k : List Nat) (n : Nat)
    (hall : htAll P ht) (hk : P k) : htAll P (hash_table_insert ht k n) := by
  intro b hb e he
  rcases List.mem_or_eq_of_mem_set hb with hb' | rfl
  · exact hall b hb' e he
  · rcases List.mem_cons.mp he with rfl | he'
    · exact hk
    · rcases getD_mem_or_nil ht (hash_key k) with hmem | hnil
      · exact hall _ hmem e he'
      · rw [hnil] at he'
        cases he'

theorem bucket_lookup_eq_zero (k : List Nat) (l : List HashEntry)
    (h : ∀ e ∈ l, e.key ≠ k) : bucket_lookup k l = 0 := by
  induction l with
  | nil => rfl
  | cons e rest ih =>
    unfold bucket_lookup
    rw [if_neg (h e (List.mem_cons_self e rest))]
    exact ih (fun e' he' => h e' (List.mem_cons_of_mem e he'))

theorem htAll_lookup_zero (P : List Nat → Prop) (ht : HashTable) (k : List Nat)
    (hall : htAll P ht) (hP : ∀ key, P key → key ≠ k) :
    hash_table_lookup ht k = 0 := by
  unfold hash_table_lookup
  rcases getD_mem_or_nil ht (hash_key k) with h | h
  · exact bucket_lookup_eq_zero k _ (fun e he => hP e.key (hall _ h e he))
  · rw [h]
    rfl

/-- A put that misses the index on a state with an empty free list performs
a fresh allocation of page `next_free_page` and succeeds. -/
theorem db_put_fresh_alloc (db : Db) (k v : List Nat)
    (hno : ¬ ((pageHeaderSize + 4 + k.length + 4 + v.length) % 4294967296 > PAGE_SIZE))
    (hflh : db.header.free_list_head = 0)
    (hmiss : hash_table_lookup db.index k = 0)
    (hnz : db.header.next_free_page ≠ 0) :
    db_put db k v =
      (.ok (), { header := { db.header with
                   next_free_page :=
                     (db.header.next_free_page + 1) % 18446744073709551616,
                   num_pages := (db.header.num_pages + 1) % 4294967296 },
                 index := hash_table_insert db.index k db.header.next_free_page,
                 file := writePage db.file db.header.next_free_page (dataPage k v) }) := by
  have halloc : alloc_page db =
      (db.header.next_free_page, { db with header := { db.header with
        next_free_page := (db.header.next_free_page + 1) % 18446744073709551616,
        num_pages := (db.header.num_pages + 1) % 4294967296 } }) := by
    unfold alloc_page
    rw [if_neg (by rw [hflh]; simp)]
  unfold db_put db_put_io
  rw [if_neg hno]
  simp only [hmiss, halloc]
  rw [if_neg hnz, if_neg (by simp), if_neg (by decide)]

theorem alloc_page_cases (db : Db) :
    ((alloc_page db).2.header.num_pages = db.header.num_pages ∧
     (alloc_page db).2.header.next_free_page = db.header.next_free_page) ∨
    ((alloc_page db).2.header.num_pages = (db.header.num_pages + 1) % 4294967296 ∧
     (alloc_page db).2.header.next_free_page =
       (db.header.next_free_page + 1) % 18446744073709551616) := by
  unfold alloc_page
  by_cases h : db.header.free_list_head ≠ 0
  · rw [if_pos h]
    cases readPage db.file db.header.free_list_head <;> simp
  · rw [if_neg h]
    simp

theorem db_put_snd_header (db : Db) (k v : List Nat) :
    ((db_put db k v).2.header.num_pages = db.header.num_pages ∧
     (db_put db k v).2.header.next_free_page = db.header.next_free_page) ∨
    ((db_put db k v).2.header.num_pages = (db.header.num_pages + 1) % 4294967296 ∧
     (db_put db k v).2.header.next_free_page =
       (db.header.next_free_page + 1) % 18446744073709551616) := by
  unfold db_put db_put_io
  by_cases hreq : (pageHeaderSize + 4 + k.length + 4 + v.length) % 4294967296 > PAGE_SIZE
  · rw [if_pos hreq]
    left
    exact ⟨rfl, rfl⟩
  · rw [if_neg hreq]
    simp only []
    by_cases hz : (alloc_page db).1 = 0
    · rw [if_pos hz]
      exact alloc_page_cases db
    · rw [if_neg hz]
      by_cases ho : hash_table_lookup db.index k ≠ 0
      · rw [if_pos ho, if_neg (by decide)]
        rcases alloc_page_cases db with ⟨ha, hb⟩ | ⟨ha, hb⟩
        · left
          constructor <;> simp [free_page, ha, hb]
        · right
          constructor <;> simp [free_page, ha, hb]
      · rw [if_neg ho, if_neg (by decide)]
        exact alloc_page_cases db

theorem db_delete_snd_header (db : Db) (k : List Nat) :
    (db_delete db k).2.header.num_pages = db.header.num_pages ∧
    (db_delete db k).2.header.next_free_page = db.header.next_free_page := by
  unfold db_delete
  by_cases h : hash_table_lookup db.index k = 0
  · rw [if_pos h]
    exact ⟨rfl, rfl⟩
  · rw [if_neg h]
    exact ⟨by simp [free_page], by simp [free_page]⟩

theorem db_get_snd (db : Db) (k : List Nat) : (db_get db k).2 = db := by
  unfold db_get
  by_cases h : hash_table_lookup db.index k = 0
  · rw [if_pos h]
  · rw [if_neg h]
    cases hr : readPage db.file (hash_table_lookup db.index k) <;> simp [hr]

theorem manyPut_invariant (n : Nat) (hn : n ≤ 4294967295) :
    (run (putOps n) freshDb).header =
      { magic := MAGIC, version := VERSION, page_size := PAGE_SIZE,
        num_pages := (1 + n) % 4294967296, next_free_page := 1 + n,
        free_list_head := 0 } ∧
    (run (putOps n) freshDb).index.length = HASH_TABLE_SIZE ∧
    htAll (fun key => ∃ j, j < n ∧ key = le4 j) (run (putOps n) freshDb).index := by
  induction n with
  | zero =>
    refine ⟨rfl, rfl, ?_⟩
    exact htAll_create _
  | succ m ih =>
    have hm : m ≤ 4294967295 := by omega
    have hm32 : m < 4294967296 := by omega
    obtain ⟨hhdr, hlen, hall⟩ := ih hm
    have hrun : run (putOps (m + 1)) freshDb =
        (db_put (run (putOps m) freshDb) (le4 m) []).2 := by
      unfold putOps run
      rw [List.range_succ, List.map_append, List.foldl_append]
      rfl
    have hmiss : hash_table_lookup (run (putOps m) freshDb).index (le4 m) = 0 := by
      refine htAll_lookup_zero _ _ _ hall ?_
      rintro key ⟨j, hj, rfl⟩ heq
      have := le4_inj j m (by omega) hm32 heq
      omega
    have hput := db_put_fresh_alloc (run (putOps m) freshDb) (le4 m) []
      (by rw [le4_length]; decide) (by rw [hhdr]) hmiss
      (by rw [hhdr]; simp)
    rw [hrun, hput]
    refine ⟨?_, ?_, ?_⟩
    · show ({ (run (putOps m) freshDb).header with
        next_free_page :=
          ((run (putOps m) freshDb).header.next_free_page + 1) % 18446744073709551616,
        num_pages :=
          ((run (putOps m) freshDb).header.num_pages + 1) % 4294967296 } : DbHeader) = _
      rw [hhdr]
      simp only [DbHeader.mk.injEq, true_and, and_true]
      constructor <;> omega
    · show (hash_table_insert (run (putOps m) freshDb).index (le4 m) _).length = _
      rw [hash_table_insert_length, hlen]
    · refine htAll_insert _ _ _ _ ?_ ⟨m, by omega, rfl⟩
      intro b hb e he
      obtain ⟨j, hj, hk⟩ := hall b hb e he
      exact ⟨j, by omega, hk⟩

/-- C9 counterexample: along the legal operation sequence of 2^32 - 1 puts
of distinct 4-byte keys from a fresh store, `num_pages` (a `uint32_t`)
wraps at the last allocation: it falls from 4294967295 to 0, so it is not
true that num_pages never decreases over every operation sequence. -/
theorem c9_counterexample :
    (run (putOps 4294967295) freshDb).header.num_pages <
      (run (putOps 4294967294) freshDb).header.num_pages ∧
    (run (putOps 4294967294) freshDb).header.num_pages = 4294967295 ∧
    (run (putOps 4294967295) freshDb).header.num_pages = 0 := by
  have h1 := (manyPut_invariant 4294967294 (by omega)).1
  have h2 := (manyPut_invariant 4294967295 (by omega)).1
  rw [h1, h2]
  refine ⟨by norm_num, by norm_num, by norm_num⟩

/-- C9 (amended): across any single operation from a state whose header has
1 ≤ next_free_page < 2^64 - 1 and num_pages < 2^32 - 1 (true for the first
2^32 - 2 allocations of any run from a fresh store), next_free_page stays
≥ 1 and num_pages does not decrease — in particular a free never decreases
it. -/
theorem c9_header_invariants (db : Db) (op : Op)
    (h1 : 1 ≤ db.header.next_free_page)
    (h2 : db.header.next_free_page < 18446744073709551615)
    (h3 : db.header.num_pages < 4294967295) :
    1 ≤ (applyOp db op).header.next_free_page ∧
    db.header.num_pages ≤ (applyOp db op).header.num_pages := by
  cases op with
  | put k v =>
    show 1 ≤ (db_put db k v).2.header.next_free_page ∧
      db.header.num_pages ≤ (db_put db k v).2.header.num_pages
    rcases db_put_snd_header db k v with ⟨ha, hb⟩ | ⟨ha, hb⟩
    · rw [ha, hb]
      exact ⟨h1, Nat.le_refl _⟩
    · rw [ha, hb]
      constructor <;> · rw [Nat.mod_eq_of_lt (by omega)]; omega
  | get k =>
    show 1 ≤ (db_get db k).2.header.next_free_page ∧
      db.header.num_pages ≤ (db_get db k).2.header.num_pages
    rw [db_get_snd]
    exact ⟨h1, Nat.le_refl _⟩
  | del k =>
    show 1 ≤ (db_delete db k).2.header.next_free_page ∧
      db.header.num_pages ≤ (db_delete db k).2.header.num_pages
    rw [(db_delete_snd_header db k).1, (db_delete_snd_header db k).2]
    exact ⟨h1, Nat.le_refl _⟩

theorem c9_witness :
    1 ≤ (applyOp freshDb (Op.put [1] [2])).header.next_free_page ∧
    freshDb.header.num_pages ≤ (applyOp freshDb (Op.put [1] [2])).header.num_pages :=
  c9_header_invariants freshDb (Op.put [1] [2]) (by decide) (by decide) (by decide)
